import Mathlib

/-!
Verification of the `speech-synthesis` crate: audio format model, format
negotiation contract, utterance configuration and event-stream contract.

Data types are embedded from `src/audio.rs`, `src/event.rs` and `src/lib.rs`.
Rust `u32`/`u16` values are modelled as `Nat` (no arithmetic in the source can
overflow: the only arithmetic performed is distance comparison between
bitrates), `Box<str>` as `String`, `Option<T>` as `Option`, `Vec<T>` as `List`,
and `f32` time offsets/weights as `Float` (no claim reasons about their values).
-/

/-- Embeds `enum AudioCodec { Opus, Vorbis }` from `src/audio.rs`. -/
inductive AudioCodec where
  | Opus
  | Vorbis
deriving DecidableEq, Repr, Fintype

/-- Embeds `enum AudioEncoding { Pcm, ALaw, MuLaw }` from `src/audio.rs`. -/
inductive AudioEncoding where
  | Pcm
  | ALaw
  | MuLaw
deriving DecidableEq, Repr, Fintype

/-- Embeds `enum AudioChannels { Mono, Stereo }` from `src/audio.rs`. -/
inductive AudioChannels where
  | Mono
  | Stereo
deriving DecidableEq, Repr, Fintype

/-- Embeds `enum AudioContainer` from `src/audio.rs`: `Raw(AudioEncoding)`,
`Riff(AudioEncoding)`, `Mp3`, `Ogg(AudioCodec)`, `Webm(AudioCodec)`. -/
inductive AudioContainer where
  | Raw (encoding : AudioEncoding)
  | Riff (encoding : AudioEncoding)
  | Mp3
  | Ogg (codec : AudioCodec)
  | Webm (codec : AudioCodec)
deriving DecidableEq, Repr, Fintype

/-- Embeds `struct AudioFormatPreference` from `src/audio.rs`: four independent
optional preference lists. -/
structure AudioFormatPreference where
  sample_rates : Option (List Nat) := none
  channels : Option (List AudioChannels) := none
  bitrates : Option (List Nat) := none
  containers : Option (List AudioContainer) := none
deriving DecidableEq, Repr

instance : Inhabited AudioFormatPreference := ⟨{}⟩

namespace AudioFormatPreference

/-- Embeds `AudioFormatPreference::with_prefer_sample_rates`: collects the
iterator into a fresh list when the field is `None`, otherwise extends the
existing list. -/
def with_prefer_sample_rates (self : AudioFormatPreference) (pref : List Nat) :
    AudioFormatPreference :=
  match self.sample_rates with
  | none => { self with sample_rates := some pref }
  | some sample_rates => { self with sample_rates := some (sample_rates ++ pref) }

/-- Embeds `AudioFormatPreference::with_prefer_channels`. -/
def with_prefer_channels (self : AudioFormatPreference) (pref : List AudioChannels) :
    AudioFormatPreference :=
  match self.channels with
  | none => { self with channels := some pref }
  | some channels => { self with channels := some (channels ++ pref) }

/-- Embeds `AudioFormatPreference::with_prefer_bitrates`. -/
def with_prefer_bitrates (self : AudioFormatPreference) (pref : List Nat) :
    AudioFormatPreference :=
  match self.bitrates with
  | none => { self with bitrates := some pref }
  | some bitrates => { self with bitrates := some (bitrates ++ pref) }

/-- Embeds `AudioFormatPreference::with_prefer_containers`. -/
def with_prefer_containers (self : AudioFormatPreference) (pref : List AudioContainer) :
    AudioFormatPreference :=
  match self.containers with
  | none => { self with containers := some pref }
  | some containers => { self with containers := some (containers ++ pref) }

end AudioFormatPreference

/-- Embeds `struct AudioFormat` from `src/audio.rs`. The Rust accessors
`name()`, `sample_rate()`, `channels()`, `bitrate()`, `container()` simply
return the corresponding private field, so they are embedded as the field
projections of this structure. -/
structure AudioFormat where
  name : Option String
  sample_rate : Nat
  channels : AudioChannels
  bitrate : Option Nat
  container : AudioContainer
deriving DecidableEq, Repr

namespace AudioFormat

/-- Embeds `AudioFormat::new`: constructs a format with no name. -/
def new (sample_rate : Nat) (channels : AudioChannels) (bitrate : Option Nat)
    (container : AudioContainer) : AudioFormat :=
  { name := none, sample_rate, channels, bitrate, container }

/-- Embeds `AudioFormat::new_named`: constructs a format carrying a name. -/
def new_named (name : String) (sample_rate : Nat) (channels : AudioChannels)
    (bitrate : Option Nat) (container : AudioContainer) : AudioFormat :=
  { name := some name, sample_rate, channels, bitrate, container }

end AudioFormat

/-- Embeds `struct UtteranceConfig` from `src/lib.rs`. -/
structure UtteranceConfig where
  emit_word_boundary_events : Bool := false
  emit_sentence_boundary_events : Bool := false
  emit_visemes : Bool := false
  voice : Option String := none
  language : Option String := none
deriving DecidableEq, Repr

namespace UtteranceConfig

/-- Embeds `UtteranceConfig::with_emit_word_boundary_events`. -/
def with_emit_word_boundary_events (self : UtteranceConfig) (x : Bool) : UtteranceConfig :=
  { self with emit_word_boundary_events := x }

/-- Embeds `UtteranceConfig::with_emit_sentence_boundary_events`. -/
def with_emit_sentence_boundary_events (self : UtteranceConfig) (x : Bool) : UtteranceConfig :=
  { self with emit_sentence_boundary_events := x }

/-- Embeds `UtteranceConfig::with_emit_visemes`. -/
def with_emit_visemes (self : UtteranceConfig) (x : Bool) : UtteranceConfig :=
  { self with emit_visemes := x }

/-- Embeds `UtteranceConfig::with_voice`. -/
def with_voice (self : UtteranceConfig) (x : String) : UtteranceConfig :=
  { self with voice := some x }

/-- Embeds `UtteranceConfig::with_language`. -/
def with_language (self : UtteranceConfig) (x : String) : UtteranceConfig :=
  { self with language := some x }

end UtteranceConfig

/-- Embeds `struct BlendShape` from `src/event.rs`. -/
structure BlendShape where
  key : String
  weight : Float

/-- Embeds `struct BlendShapeVisemeFrame` from `src/event.rs`. -/
structure BlendShapeVisemeFrame where
  blendshapes : List BlendShape
  frame_offset : Float

/-- Embeds `struct BasicViseme(pub char)` from `src/event.rs`. -/
structure BasicViseme where
  code : Char
deriving DecidableEq, Repr

/-- Embeds `struct BasicVisemeFrame` from `src/event.rs`. -/
structure BasicVisemeFrame where
  viseme : BasicViseme
  frame_offset : Float

/-- Embeds `enum UtteranceEvent` from `src/event.rs`. -/
inductive UtteranceEvent where
  | SsmlMark (at_millis : Float) (mark : String)
  | WordBoundary (from_millis : Float) (to_millis : Float) (text : String)
  | SentenceBoundary (from_millis : Float) (to_millis : Float) (text : String)
  | BlendShapeVisemesChunk (frames : List BlendShapeVisemeFrame)
  | VisemesChunk (frames : List BasicVisemeFrame)
  | AudioChunk (bytes : List Nat)

/-- Modelled from the spec: the repository declares `negotiate_audio_format`
only as a trait method (`src/lib.rs`), with no implementation under `src/`.
The backend capability collaborator of spec section 6 supplies "the enumerable
set of supported (sample rate, channels, bitrate, container) combinations",
described per dimension in section 4.1; it is modelled as one supported-value
list per dimension, each "ordered" with the backend default first. -/
structure Capabilities where
  sample_rates : List Nat
  channels : List AudioChannels
  bitrates : List Nat
  containers : List AudioContainer
deriving DecidableEq, Repr

/-- Modelled from the spec (section 4.1, steps 1, 2 and 4): resolution of one
hard-constraint dimension. A non-empty application preference list is
intersected with the backend's supported values and the highest-priority
surviving entry is chosen; an empty intersection fails. An absent (or empty)
preference list selects the backend's own default/first-supported value. -/
def pickHard {α : Type} [DecidableEq α] (pref : Option (List α)) (supported : List α) :
    Option α :=
  match pref with
  | none => supported.head?
  | some [] => supported.head?
  | some (a :: rest) => (a :: rest).find? (fun x => decide (x ∈ supported))

/-- Modelled from the spec (section 4.1, step 3): whether a container has a
bitrate concept. Containerless/lossless containers (raw and RIFF framing of a
sample encoding, "e.g. raw PCM") have none; the compressed containers (MP3,
OGG, WEBM) do. -/
def containerHasBitrate : AudioContainer → Bool
  | .Raw _ => false
  | .Riff _ => false
  | .Mp3 => true
  | .Ogg _ => true
  | .Webm _ => true

/-- Modelled from the spec (section 4.1, step 3 and the worked example of the
original contract): the backend-supported bitrate whose value is closest to the
target; on a tie the higher bitrate wins, so that supported `{128, 192}` with
target `160` yields `192`. -/
def closestBitrate (target : Nat) : List Nat → Option Nat
  | [] => none
  | b :: rest =>
    match closestBitrate target rest with
    | none => some b
    | some best =>
      if Nat.dist b target < Nat.dist best target ∨
          (Nat.dist b target = Nat.dist best target ∧ best < b) then some b
      else some best

/-- Modelled from the spec (section 4.1, steps 2 and 3): resolution of the soft
bitrate dimension for the chosen container. Containers without a bitrate
concept leave the field absent regardless of preference; otherwise a requested
preference selects the supported bitrate closest to the highest-priority entry,
and an absent preference selects the backend's default/first-supported value.
This dimension never fails the negotiation. -/
def pickBitrate (pref : Option (List Nat)) (supported : List Nat)
    (container : AudioContainer) : Option Nat :=
  if containerHasBitrate container then
    match pref with
    | none => supported.head?
    | some [] => supported.head?
    | some (b :: _) => closestBitrate b supported
  else none

/-- Modelled from the spec (section 4.1): the format negotiation algorithm,
`negotiate(preference, capability_set) -> Option<AudioFormat>`. Sample rate,
channel layout and container are hard constraints resolved by `pickHard`;
bitrate is the soft dimension resolved by `pickBitrate` against the chosen
container; the resulting format is assembled with `AudioFormat::new` (unnamed).
The implementation under `src/` only declares this operation on the
`SpeechSynthesiser` trait. -/
def negotiate (pref : AudioFormatPreference) (caps : Capabilities) : Option AudioFormat :=
  match pickHard pref.sample_rates caps.sample_rates,
      pickHard pref.channels caps.channels,
      pickHard pref.containers caps.containers with
  | some sample_rate, some channels, some container =>
    some (AudioFormat.new sample_rate channels
      (pickBitrate pref.bitrates caps.bitrates container) container)
  | _, _, _ => none

/-- Modelled from the spec (section 4.2): the item sequence a conforming
backend's `UtteranceEventStream` may produce. The repository defines the
stream only as a trait alias over `futures_core::Stream` with items
`Result<UtteranceEvent, E>` (`src/event.rs`); the spec's termination contract
says a stream is a finite sequence of event items ending either normally or
with one terminal error item, which this trace type captures as the emitted
events plus an optional terminal error. -/
structure StreamTrace (E : Type) where
  events : List UtteranceEvent
  terminalError : Option E

/-- Modelled from the spec (section 4.2): the ordered sequence of
`Result<UtteranceEvent, E>` items a trace emits to the consumer: every
synthesised event as an `Ok` item, then the terminal error item, if any. -/
def StreamTrace.items {E : Type} (t : StreamTrace E) : List (Except E UtteranceEvent) :=
  t.events.map Except.ok ++
    (match t.terminalError with
     | none => []
     | some e => [Except.error e])

/-- Whether a stream item is an `Err`. -/
def isErrItem {E : Type} : Except E UtteranceEvent → Bool
  | .error _ => true
  | .ok _ => false

/-- C3: for every sample rate, channel layout, optional bitrate, container and
name, an `AudioFormat` built by `new` (or `new_named`) and then queried through
its accessors returns exactly the constructor arguments, including `some name`
for `new_named` and an absent bitrate when none was passed. -/
theorem audio_format_roundtrip (sr : Nat) (ch : AudioChannels) (br : Option Nat)
    (cont : AudioContainer) (n : String) :
    (AudioFormat.new sr ch br cont).sample_rate = sr ∧
    (AudioFormat.new sr ch br cont).channels = ch ∧
    (AudioFormat.new sr ch br cont).bitrate = br ∧
    (AudioFormat.new sr ch br cont).container = cont ∧
    (AudioFormat.new sr ch none cont).bitrate = none ∧
    (AudioFormat.new_named n sr ch br cont).name = some n ∧
    (AudioFormat.new_named n sr ch br cont).sample_rate = sr ∧
    (AudioFormat.new_named n sr ch br cont).channels = ch ∧
    (AudioFormat.new_named n sr ch br cont).bitrate = br ∧
    (AudioFormat.new_named n sr ch br cont).container = cont :=
  ⟨rfl, rfl, rfl, rfl, rfl, rfl, rfl, rfl, rfl, rfl⟩

/-- C4: every `with_prefer_*` builder appends its argument to the end of the
corresponding preference list rather than replacing it: an absent list becomes
`some xs`, and `some old` becomes `some (old ++ xs)`, preserving order (and
hence keeping duplicates and the priority of earlier occurrences). -/
theorem with_prefer_appends (p : AudioFormatPreference) (xs : List Nat)
    (cs : List AudioChannels) (bs : List Nat) (ks : List AudioContainer) :
    (p.sample_rates = none → (p.with_prefer_sample_rates xs).sample_rates = some xs) ∧
    (∀ old, p.sample_rates = some old →
      (p.with_prefer_sample_rates xs).sample_rates = some (old ++ xs)) ∧
    (p.channels = none → (p.with_prefer_channels cs).channels = some cs) ∧
    (∀ old, p.channels = some old →
      (p.with_prefer_channels cs).channels = some (old ++ cs)) ∧
    (p.bitrates = none → (p.with_prefer_bitrates bs).bitrates = some bs) ∧
    (∀ old, p.bitrates = some old →
      (p.with_prefer_bitrates bs).bitrates = some (old ++ bs)) ∧
    (p.containers = none → (p.with_prefer_containers ks).containers = some ks) ∧
    (∀ old, p.containers = some old →
      (p.with_prefer_containers ks).containers = some (old ++ ks)) := by
  refine ⟨fun h => ?_, fun old h => ?_, fun h => ?_, fun old h => ?_,
    fun h => ?_, fun old h => ?_, fun h => ?_, fun old h => ?_⟩ <;>
    simp [AudioFormatPreference.with_prefer_sample_rates,
      AudioFormatPreference.with_prefer_channels,
      AudioFormatPreference.with_prefer_bitrates,
      AudioFormatPreference.with_prefer_containers, h]

/-- Witness for C4 at concrete inputs: starting from the empty preference,
one application installs the list and a second application appends to it. -/
theorem with_prefer_appends_witness :
    (({} : AudioFormatPreference).with_prefer_sample_rates [44100]).sample_rates
        = some [44100] ∧
    ((({} : AudioFormatPreference).with_prefer_sample_rates
        [44100]).with_prefer_sample_rates [22050, 44100]).sample_rates
        = some [44100, 22050, 44100] :=
  ⟨(with_prefer_appends {} [44100] [] [] []).1 rfl,
    (with_prefer_appends (({} : AudioFormatPreference).with_prefer_sample_rates [44100])
      [22050, 44100] [] [] []).2.1 [44100] rfl⟩

/-- Counterexample to C5: `AudioEncoding` does not contain four pairwise
distinct values; `src/audio.rs` declares only the three variants `Pcm`, `ALaw`
and `MuLaw` (no separate 32-bit float PCM encoding exists). -/
theorem audio_encoding_not_four_values :
    ¬ ∃ a b c d : AudioEncoding, a ≠ b ∧ a ≠ c ∧ a ≠ d ∧ b ≠ c ∧ b ≠ d ∧ c ≠ d := by
  decide

/-- C5 (amended): `AudioEncoding` is a closed variant with exactly the three
raw sample encodings PCM, 8-bit A-law and 8-bit μ-law, each a distinct
constructible value. -/
theorem audio_encoding_three_values :
    (∀ e : AudioEncoding, e = .Pcm ∨ e = .ALaw ∨ e = .MuLaw) ∧
    AudioEncoding.Pcm ≠ AudioEncoding.ALaw ∧
    AudioEncoding.Pcm ≠ AudioEncoding.MuLaw ∧
    AudioEncoding.ALaw ≠ AudioEncoding.MuLaw := by
  decide

/-- C6: every `AudioContainer` is a `Raw` or `Riff` around exactly one
encoding, an `Ogg` or `Webm` around exactly one codec, or payloadless `Mp3`;
and equality holds exactly for the same variant with equal payload (the
injectivity and cross-variant disequalities below are that characterisation;
in particular `Ogg Opus ≠ Ogg Vorbis`). -/
theorem audio_container_payload_equality :
    (∀ c : AudioContainer, (∃ e, c = .Raw e) ∨ (∃ e, c = .Riff e) ∨ c = .Mp3 ∨
      (∃ k, c = .Ogg k) ∨ (∃ k, c = .Webm k)) ∧
    (∀ e₁ e₂, AudioContainer.Raw e₁ = AudioContainer.Raw e₂ ↔ e₁ = e₂) ∧
    (∀ e₁ e₂, AudioContainer.Riff e₁ = AudioContainer.Riff e₂ ↔ e₁ = e₂) ∧
    (∀ k₁ k₂, AudioContainer.Ogg k₁ = AudioContainer.Ogg k₂ ↔ k₁ = k₂) ∧
    (∀ k₁ k₂, AudioContainer.Webm k₁ = AudioContainer.Webm k₂ ↔ k₁ = k₂) ∧
    (∀ e₁ e₂, AudioContainer.Raw e₁ ≠ AudioContainer.Riff e₂) ∧
    (∀ e, AudioContainer.Raw e ≠ AudioContainer.Mp3) ∧
    (∀ e k, AudioContainer.Raw e ≠ AudioContainer.Ogg k) ∧
    (∀ e k, AudioContainer.Raw e ≠ AudioContainer.Webm k) ∧
    (∀ e, AudioContainer.Riff e ≠ AudioContainer.Mp3) ∧
    (∀ e k, AudioContainer.Riff e ≠ AudioContainer.Ogg k) ∧
    (∀ e k, AudioContainer.Riff e ≠ AudioContainer.Webm k) ∧
    (∀ k, AudioContainer.Mp3 ≠ AudioContainer.Ogg k) ∧
    (∀ k, AudioContainer.Mp3 ≠ AudioContainer.Webm k) ∧
    (∀ k₁ k₂, AudioContainer.Ogg k₁ ≠ AudioContainer.Webm k₂) ∧
    AudioContainer.Ogg .Opus ≠ AudioContainer.Ogg .Vorbis := by
  decide

/-- C9: `AudioFormat.new` always yields an unnamed format, `new_named` always
yields a named one, and any format whose name is present is exactly
`new_named` applied to its own fields (names are fixed at construction: the
remaining operations on `AudioFormat` are the read-only accessors). -/
theorem audio_format_name_provenance :
    (∀ sr ch br cont, (AudioFormat.new sr ch br cont).name = none) ∧
    (∀ n sr ch br cont, (AudioFormat.new_named n sr ch br cont).name = some n) ∧
    (∀ f : AudioFormat, ∀ n, f.name = some n →
      f = AudioFormat.new_named n f.sample_rate f.channels f.bitrate f.container) := by
  refine ⟨fun _ _ _ _ => rfl, fun _ _ _ _ _ => rfl, fun f n h => ?_⟩
  cases f
  simp_all [AudioFormat.new_named]

/-- Witness for C9 at a concrete named format. -/
theorem audio_format_name_provenance_witness :
    AudioFormat.new_named "wav" 16000 .Mono none (.Riff .Pcm)
      = AudioFormat.new_named "wav"
        (AudioFormat.new_named "wav" 16000 .Mono none (.Riff .Pcm)).sample_rate
        (AudioFormat.new_named "wav" 16000 .Mono none (.Riff .Pcm)).channels
        (AudioFormat.new_named "wav" 16000 .Mono none (.Riff .Pcm)).bitrate
        (AudioFormat.new_named "wav" 16000 .Mono none (.Riff .Pcm)).container :=
  audio_format_name_provenance.2.2
    (AudioFormat.new_named "wav" 16000 .Mono none (.Riff .Pcm)) "wav" rfl

/-- C10: each `UtteranceConfig` builder changes only its own field (`x`, or
`Some x` for voice and language — so those two can never be reset to `None`)
and leaves the other four fields of the configuration unchanged. -/
theorem utterance_config_builders_frame (c : UtteranceConfig) (b : Bool) (s : String) :
    ((c.with_emit_word_boundary_events b).emit_word_boundary_events = b ∧
      (c.with_emit_word_boundary_events b).emit_sentence_boundary_events
        = c.emit_sentence_boundary_events ∧
      (c.with_emit_word_boundary_events b).emit_visemes = c.emit_visemes ∧
      (c.with_emit_word_boundary_events b).voice = c.voice ∧
      (c.with_emit_word_boundary_events b).language = c.language) ∧
    ((c.with_emit_sentence_boundary_events b).emit_sentence_boundary_events = b ∧
      (c.with_emit_sentence_boundary_events b).emit_word_boundary_events
        = c.emit_word_boundary_events ∧
      (c.with_emit_sentence_boundary_events b).emit_visemes = c.emit_visemes ∧
      (c.with_emit_sentence_boundary_events b).voice = c.voice ∧
      (c.with_emit_sentence_boundary_events b).language = c.language) ∧
    ((c.with_emit_visemes b).emit_visemes = b ∧
      (c.with_emit_visemes b).emit_word_boundary_events = c.emit_word_boundary_events ∧
      (c.with_emit_visemes b).emit_sentence_boundary_events
        = c.emit_sentence_boundary_events ∧
      (c.with_emit_visemes b).voice = c.voice ∧
      (c.with_emit_visemes b).language = c.language) ∧
    ((c.with_voice s).voice = some s ∧
      (c.with_voice s).emit_word_boundary_events = c.emit_word_boundary_events ∧
      (c.with_voice s).emit_sentence_boundary_events = c.emit_sentence_boundary_events ∧
      (c.with_voice s).emit_visemes = c.emit_visemes ∧
      (c.with_voice s).language = c.language) ∧
    ((c.with_language s).language = some s ∧
      (c.with_language s).emit_word_boundary_events = c.emit_word_boundary_events ∧
      (c.with_language s).emit_sentence_boundary_events = c.emit_sentence_boundary_events ∧
      (c.with_language s).emit_visemes = c.emit_visemes ∧
      (c.with_language s).voice = c.voice) :=
  ⟨⟨rfl, rfl, rfl, rfl, rfl⟩, ⟨rfl, rfl, rfl, rfl, rfl⟩, ⟨rfl, rfl, rfl, rfl, rfl⟩,
    ⟨rfl, rfl, rfl, rfl, rfl⟩, ⟨rfl, rfl, rfl, rfl, rfl⟩⟩

/-- A hard-constraint dimension fails exactly when a non-empty preference list
was supplied whose intersection with the (non-empty) supported list is empty. -/
theorem pickHard_eq_none_iff {α : Type} [DecidableEq α] (pref : Option (List α))
    (supported : List α) (hs : supported ≠ []) :
    pickHard pref supported = none ↔
      ∃ l, pref = some l ∧ l ≠ [] ∧ ∀ x ∈ l, x ∉ supported := by
  match pref with
  | none => simp [pickHard, List.head?_eq_none_iff, hs]
  | some [] => simp [pickHard, List.head?_eq_none_iff, hs]
  | some (a :: rest) =>
    rw [pickHard, List.find?_eq_none]
    constructor
    · intro h
      exact ⟨a :: rest, rfl, by simp, fun x hx => by simpa using h x hx⟩
    · rintro ⟨l, hl, -, hnot⟩ x hx
      obtain rfl : l = a :: rest := by injection hl.symm
      simpa using hnot x hx

/-- C1: for every preference and backend capability set (offering at least one
value in each hard dimension), negotiation returns `none` exactly when some
hard-constraint dimension — sample rate, channel layout or container — was
requested with a non-empty preference list whose intersection with the
backend's supported values is empty; when every requested hard dimension has a
non-empty intersection, negotiation succeeds with some `AudioFormat`. -/
theorem negotiate_none_iff (p : AudioFormatPreference) (c : Capabilities)
    (hs : c.sample_rates ≠ []) (hch : c.channels ≠ []) (hco : c.containers ≠ []) :
    negotiate p c = none ↔
      (∃ l, p.sample_rates = some l ∧ l ≠ [] ∧ ∀ x ∈ l, x ∉ c.sample_rates) ∨
      (∃ l, p.channels = some l ∧ l ≠ [] ∧ ∀ x ∈ l, x ∉ c.channels) ∨
      (∃ l, p.containers = some l ∧ l ≠ [] ∧ ∀ x ∈ l, x ∉ c.containers) := by
  rw [← pickHard_eq_none_iff p.sample_rates c.sample_rates hs,
    ← pickHard_eq_none_iff p.channels c.channels hch,
    ← pickHard_eq_none_iff p.containers c.containers hco]
  unfold negotiate
  rcases pickHard p.sample_rates c.sample_rates with _ | sr <;>
    rcases pickHard p.channels c.channels with _ | ch <;>
    rcases pickHard p.containers c.containers with _ | k <;> simp

/-- Witness for C1: a preference requesting only the sample rate 48000 against
a backend supporting only 44100 fails negotiation. -/
theorem negotiate_none_iff_witness :
    negotiate ⟨some [48000], none, none, none⟩ ⟨[44100], [.Stereo], [128], [.Mp3]⟩
      = none :=
  (negotiate_none_iff ⟨some [48000], none, none, none⟩
      ⟨[44100], [.Stereo], [128], [.Mp3]⟩ (by decide) (by decide) (by decide)).mpr
    (Or.inl ⟨[48000], rfl, by decide, by decide⟩)

/-- On a non-empty supported list, `closestBitrate` returns a supported value
minimising the distance to the target, breaking ties toward the higher
bitrate. -/
theorem closestBitrate_spec (target : Nat) (l : List Nat) (hl : l ≠ []) :
    ∃ v, closestBitrate target l = some v ∧ v ∈ l ∧
      ∀ w ∈ l, Nat.dist v target < Nat.dist w target ∨
        (Nat.dist v target = Nat.dist w target ∧ w ≤ v) := by
  induction l with
  | nil => exact absurd rfl hl
  | cons b rest ih =>
    by_cases hrest : rest = []
    · subst hrest
      exact ⟨b, rfl, by simp, by simp⟩
    · obtain ⟨best, hbest, hmem, hopt⟩ := ih hrest
      rw [closestBitrate, hbest]
      by_cases h : Nat.dist b target < Nat.dist best target ∨
          (Nat.dist b target = Nat.dist best target ∧ best < b)
      · refine ⟨b, by dsimp only; rw [if_pos h], by simp, ?_⟩
        intro w hw
        rcases List.mem_cons.mp hw with rfl | hw
        · right; exact ⟨rfl, le_refl w⟩
        · rcases hopt w hw with hlt | ⟨heq, hle⟩ <;> rcases h with h | ⟨h, hbb⟩ <;> omega
      · refine ⟨best, by dsimp only; rw [if_neg h], List.mem_cons_of_mem b hmem, ?_⟩
        intro w hw
        push_neg at h
        rcases List.mem_cons.mp hw with rfl | hw
        · rcases Nat.lt_or_ge (Nat.dist best target) (Nat.dist w target) with hlt | hge
          · left; exact hlt
          · right; omega
        · exact hopt w hw

/-- Negotiation succeeds with `f` exactly when all three hard dimensions
resolve and `f` is assembled from their values and the resolved bitrate. -/
theorem negotiate_eq_some_iff (p : AudioFormatPreference) (c : Capabilities)
    (f : AudioFormat) :
    negotiate p c = some f ↔
      ∃ sr ch k, pickHard p.sample_rates c.sample_rates = some sr ∧
        pickHard p.channels c.channels = some ch ∧
        pickHard p.containers c.containers = some k ∧
        f = AudioFormat.new sr ch (pickBitrate p.bitrates c.bitrates k) k := by
  unfold negotiate
  rcases pickHard p.sample_rates c.sample_rates with _ | sr <;>
    rcases pickHard p.channels c.channels with _ | ch <;>
    rcases pickHard p.containers c.containers with _ | k <;>
    simp [eq_comm]

/-- C2: when the application supplies a non-empty bitrate preference list,
negotiation never fails because of bitrate (success is unchanged if the
bitrate preference is dropped); on success, a container with no bitrate
concept leaves the bitrate absent, and otherwise (with the backend supporting
any bitrate at all) the chosen bitrate is a supported value closest to the
highest-priority requested bitrate, ties resolving to the higher value — so
supported `{128, 192}` against preference `[160]` yields `192`. -/
theorem negotiate_bitrate_soft (p : AudioFormatPreference) (c : Capabilities)
    (b : Nat) (rest : List Nat) (hb : p.bitrates = some (b :: rest)) :
    (negotiate { p with bitrates := none } c).isSome = (negotiate p c).isSome ∧
    ∀ f, negotiate p c = some f →
      (containerHasBitrate f.container = false → f.bitrate = none) ∧
      (containerHasBitrate f.container = true → c.bitrates ≠ [] →
        ∃ v, f.bitrate = some v ∧ v ∈ c.bitrates ∧
          ∀ w ∈ c.bitrates, Nat.dist v b < Nat.dist w b ∨
            (Nat.dist v b = Nat.dist w b ∧ w ≤ v)) := by
  constructor
  · unfold negotiate
    rcases pickHard p.sample_rates c.sample_rates with _ | sr <;>
      rcases pickHard p.channels c.channels with _ | ch <;>
      rcases pickHard p.containers c.containers with _ | k <;> simp
  · intro f hf
    obtain ⟨sr, ch, k, hsr, hch, hk, rfl⟩ := (negotiate_eq_some_iff p c f).mp hf
    constructor
    · intro hno
      simp only [AudioFormat.new] at hno ⊢
      simp [pickBitrate, hno]
    · intro hyes hbl
      have hbit : (AudioFormat.new sr ch (pickBitrate p.bitrates c.bitrates k) k).bitrate
          = closestBitrate b c.bitrates := by
        show pickBitrate p.bitrates c.bitrates k = closestBitrate b c.bitrates
        unfold pickBitrate
        rw [if_pos (show containerHasBitrate k = true from hyes), hb]
      rw [hbit]
      exact closestBitrate_spec b c.bitrates hbl

/-- Witness for C2: the spec's worked example — backend bitrates `{128, 192}`,
application preference `[160]` — where negotiation selects bitrate `192`. -/
theorem negotiate_bitrate_soft_witness :
    ∃ v, (AudioFormat.new 44100 AudioChannels.Stereo (some 192)
        AudioContainer.Mp3).bitrate = some v ∧
      v ∈ [128, 192] ∧ ∀ w ∈ [128, 192], Nat.dist v 160 < Nat.dist w 160 ∨
        (Nat.dist v 160 = Nat.dist w 160 ∧ w ≤ v) :=
  ((negotiate_bitrate_soft ⟨some [44100], some [.Stereo], some [160], some [.Mp3]⟩
        ⟨[44100], [.Stereo], [128, 192], [.Mp3]⟩ 160 [] rfl).2
      (AudioFormat.new 44100 .Stereo (some 192) .Mp3) (by decide)).2
    (by decide) (by decide)

/-- Every item of the `Ok`-mapped event part of a stream is not an error. -/
theorem ok_item_not_err {E : Type} (events : List UtteranceEvent) (i : Nat)
    (x : Except E UtteranceEvent)
    (hx : (events.map (Except.ok : UtteranceEvent → Except E UtteranceEvent))[i]? = some x) :
    isErrItem x = false := by
  rw [List.getElem?_map] at hx
  obtain ⟨ev, -, hev⟩ := Option.map_eq_some'.mp hx
  rw [← hev]
  rfl

/-- C7: in the item sequence emitted by an utterance event stream, an `Err`
item is always terminal — if the item at position `i` is an error, no item
exists at any later position. -/
theorem utterance_stream_err_terminal {E : Type} (t : StreamTrace E) (i : Nat)
    (x : Except E UtteranceEvent) (hx : t.items[i]? = some x)
    (he : isErrItem x = true) :
    ∀ j, i < j → t.items[j]? = none := by
  intro j hij
  rcases ht : t.terminalError with _ | e
  · exfalso
    have hitems : t.items = t.events.map Except.ok := by
      simp [StreamTrace.items, ht]
    rw [hitems] at hx
    rw [ok_item_not_err t.events i x hx] at he
    exact Bool.false_ne_true he
  · have hitems : t.items = t.events.map Except.ok ++ [Except.error e] := by
      simp [StreamTrace.items, ht]
    have hlen : t.items.length = t.events.length + 1 := by
      rw [hitems]; simp
    have hilen : i < t.items.length := (List.getElem?_eq_some.mp hx).1
    by_cases hin : i < t.events.length
    · exfalso
      rw [hitems, List.getElem?_append_left (by simpa using hin)] at hx
      rw [ok_item_not_err t.events i x hx] at he
      exact Bool.false_ne_true he
    · exact List.getElem?_eq_none (by omega)

/-- Witness for C7: a concrete single-item stream trace ending in an error has
no item after position 0. -/
theorem utterance_stream_err_terminal_witness :
    (StreamTrace.items (⟨[], some 0⟩ : StreamTrace Nat))[1]? = none :=
  utterance_stream_err_terminal (⟨[], some 0⟩ : StreamTrace Nat) 0
    (Except.error 0) rfl rfl 1 (by decide)

/-- C8: negotiation is deterministic in its inputs — two calls with value-equal
preferences against the same capability data return value-equal results, both
`none` or both `some` of formats agreeing on name, sample rate, channels,
bitrate and container. -/
theorem negotiate_idempotent (p₁ p₂ : AudioFormatPreference) (c : Capabilities)
    (h : p₁ = p₂) :
    (negotiate p₁ c = none ∧ negotiate p₂ c = none) ∨
    ∃ f₁ f₂, negotiate p₁ c = some f₁ ∧ negotiate p₂ c = some f₂ ∧
      f₁.name = f₂.name ∧ f₁.sample_rate = f₂.sample_rate ∧
      f₁.channels = f₂.channels ∧ f₁.bitrate = f₂.bitrate ∧
      f₁.container = f₂.container := by
  subst h
  cases negotiate p₁ c with
  | none => exact Or.inl ⟨rfl, rfl⟩
  | some f => exact Or.inr ⟨f, f, rfl, rfl, rfl, rfl, rfl, rfl, rfl⟩

/-- Witness for C8 at concrete inputs: two identical empty preferences against
a small capability table. -/
theorem negotiate_idempotent_witness :
    (negotiate {} ⟨[44100], [.Stereo], [128], [.Mp3]⟩ = none ∧
      negotiate {} ⟨[44100], [.Stereo], [128], [.Mp3]⟩ = none) ∨
    ∃ f₁ f₂, negotiate {} ⟨[44100], [.Stereo], [128], [.Mp3]⟩ = some f₁ ∧
      negotiate {} ⟨[44100], [.Stereo], [128], [.Mp3]⟩ = some f₂ ∧
      f₁.name = f₂.name ∧ f₁.sample_rate = f₂.sample_rate ∧
      f₁.channels = f₂.channels ∧ f₁.bitrate = f₂.bitrate ∧
      f₁.container = f₂.container :=
  negotiate_idempotent {} {} ⟨[44100], [.Stereo], [128], [.Mp3]⟩ rfl
